import Mathlib

/-!
Verification of the performance-monitoring core of the CampoCode Forge backend
(`src/backend/performance.py`).

Shallow embedding conventions:
* Python floats (response times, percentages, instants) are modelled as exact
  rationals `ℚ`; `datetime` instants become rationals counting seconds, so
  `timedelta(minutes=m)` is `m * 60`.
* The only irrational quantity, the sample standard deviation, is modelled in
  `ℝ` as the square root of the rational sample variance.
* Python dicts with insertion order become association lists; `deque(maxlen=n)`
  becomes a list from which everything but the last `n` elements is dropped on
  append.
* A Python dict literal that omits a key on some branch is modelled by an
  `Option` field that is `none` on that branch.
* The monitor's single non-reentrant `threading.Lock` is modelled where lock
  nesting actually occurs: acquiring the lock while it is already held blocks
  the caller forever, which we model as the operation producing `none`.
-/

namespace CampoCode

/-- The `PerformanceMetrics` dataclass: one request observation
(`src/backend/performance.py` lines 27-37). -/
structure PerformanceMetrics where
  endpoint : String
  method : String
  response_time : ℚ
  status_code : ℤ
  timestamp : ℚ
  user_id : Option ℤ
  error_message : Option String
deriving DecidableEq

/-- The `SystemMetrics` dataclass: one host-resource sample (lines 39-47). -/
structure SystemMetrics where
  cpu_percent : ℚ
  memory_percent : ℚ
  memory_used_mb : ℚ
  disk_usage_percent : ℚ
  timestamp : ℚ
deriving DecidableEq

/-- The last `n` elements of a list, in order. -/
def takeLast (n : ℕ) (l : List α) : List α := l.drop (l.length - n)

/-- Python `deque(maxlen=maxlen).append(x)`: append, evicting the oldest elements
beyond the capacity (for reachable windows at most one element is evicted). -/
def dequePush (maxlen : ℕ) (w : List α) (x : α) : List α := takeLast maxlen (w ++ [x])

/-- Push a whole sequence of items through a rolling window. -/
def pushAll (maxlen : ℕ) (w : List α) (l : List α) : List α := l.foldl (dequePush maxlen) w

/-- One value of the `endpoint_stats` defaultdict (lines 56-61): cumulative
counters plus the rolling latency window `deque(maxlen=100)`. -/
structure EndpointEntry where
  count : ℕ
  total_time : ℚ
  errors : ℕ
  response_times : List ℚ
deriving DecidableEq

/-- The defaultdict default factory value (lines 56-61). -/
def defaultEntry : EndpointEntry := ⟨0, 0, 0, []⟩

/-- The per-endpoint statistics update of `record_request` (lines 78-83):
`count += 1`, `total_time += rt`, push `rt` into the latency window, and
`errors += 1` when the status code was an error. -/
def entry_record (e : EndpointEntry) (rt : ℚ) (isError : Bool) : EndpointEntry :=
  { count := e.count + 1
    total_time := e.total_time + rt
    errors := if isError then e.errors + 1 else e.errors
    response_times := dequePush 100 e.response_times rt }

/-- Fold a sequence of `(responseTime, isError)` observations into a fresh
per-endpoint entry: the reachable aggregator states. -/
def runEntry (ops : List (ℚ × Bool)) : EndpointEntry :=
  ops.foldl (fun e p => entry_record e p.1 p.2) defaultEntry

/-- Association-list lookup, modelling `dict.get` / `in` on the
insertion-ordered `endpoint_stats` dict. -/
def lookupEntry : List (String × EndpointEntry) → String → Option EndpointEntry
  | [], _ => none
  | (k', v) :: rest, k => if k = k' then some v else lookupEntry rest k

/-- Association-list update: replace the value of an existing key in place, or
append a new key at the end (Python dict insertion order). -/
def setEntry : List (String × EndpointEntry) → String → EndpointEntry → List (String × EndpointEntry)
  | [], k, v => [(k, v)]
  | (k', v') :: rest, k, v =>
      if k = k' then (k, v) :: rest else (k', v') :: setEntry rest k v

/-- The `PerformanceMonitor` state (lines 52-68): capped global histories, the
per-endpoint stats dict, and the four threshold constants. -/
structure MonitorState where
  max_history : ℕ
  request_metrics : List PerformanceMetrics
  system_metrics : List SystemMetrics
  endpoint_stats : List (String × EndpointEntry)
  slow_request_threshold : ℚ
  error_rate_threshold : ℚ
  memory_threshold : ℚ
  cpu_threshold : ℚ
deriving DecidableEq

/-- Constructor `PerformanceMonitor.__init__(max_history)` (lines 52-68). -/
def mkMonitor (max_history : ℕ) : MonitorState :=
  { max_history := max_history
    request_metrics := []
    system_metrics := []
    endpoint_stats := []
    slow_request_threshold := 1
    error_rate_threshold := 1/10
    memory_threshold := 80
    cpu_threshold := 80 }

/-- The module-level `performance_monitor = PerformanceMonitor()` (line 285),
using the default `max_history = 1000`. -/
def initMonitor : MonitorState := mkMonitor 1000

/-- Log events emitted by `record_request`: the slow-request warning (lines
86-89) and the request-error log (lines 92-93). -/
inductive LogEvent where
  | slowRequest (key : String) (time : ℚ)
  | requestError (key : String) (msg : String)
deriving DecidableEq

/-- Whether a log event is the error-level `Request error: ...` log. -/
def isErrorEvent : LogEvent → Bool
  | .requestError _ _ => true
  | .slowRequest _ _ => false

/-- The aggregation key `f"(metrics.method) (metrics.endpoint)"` of line 76. -/
def endpoint_key (m : PerformanceMetrics) : String := m.method ++ " " ++ m.endpoint

/-- Python truthiness of an optional string: `None` and the empty string are
falsy. -/
def pyTruthyStr : Option String → Bool
  | none => false
  | some s => !s.isEmpty

/-- The entry the defaultdict yields for a key: the stored one, or the default
factory value for an absent key. -/
def entryAt (s : MonitorState) (k : String) : EndpointEntry :=
  (lookupEntry s.endpoint_stats k).getD defaultEntry

/-- Method `PerformanceMonitor.record_request` (lines 70-93), returning the new state
together with the log events it emits.  The whole body runs under the lock; no
other lock is taken inside, so the acquisition always succeeds and is left
implicit. -/
def record_request (s : MonitorState) (m : PerformanceMetrics) : MonitorState × List LogEvent :=
  let key := endpoint_key m
  let stats' := entry_record (entryAt s key) m.response_time (decide (400 ≤ m.status_code))
  let s' := { s with
    request_metrics := dequePush s.max_history s.request_metrics m
    endpoint_stats := setEntry s.endpoint_stats key stats' }
  let slowEvents :=
    if s.slow_request_threshold < m.response_time
    then [LogEvent.slowRequest key m.response_time] else []
  let errorEvents :=
    if pyTruthyStr m.error_message
    then [LogEvent.requestError key (m.error_message.getD (""))] else []
  (s', slowEvents ++ errorEvents)

/-- Run a sequence of `record_request` calls, keeping the final state. -/
def runRecords (s : MonitorState) (l : List PerformanceMetrics) : MonitorState :=
  l.foldl (fun s m => (record_request s m).1) s

/-- Run a sequence of `record_request` calls, collecting every log event in
order. -/
def runEvents (s : MonitorState) (l : List PerformanceMetrics) : List LogEvent :=
  (l.foldl (fun (p : MonitorState × List LogEvent) m =>
    let r := record_request p.1 m
    (r.1, p.2 ++ r.2)) (s, [])).2

/-- The state-mutating step of `record_system_metrics` (lines 102-110): append
the sample gathered from the host to the capped global window.  The psutil
calls and the threshold warnings act on host data outside the monitor state and
are external to the embedding. -/
def record_system_sample (s : MonitorState) (sample : SystemMetrics) : MonitorState :=
  { s with system_metrics := dequePush s.max_history s.system_metrics sample }

/-- Python `statistics.mean`: sum divided by length. -/
def listMean (l : List ℚ) : ℚ := l.sum / l.length

/-- Python `min` over a non-empty list (0 for the empty list, which the source
never passes). -/
def listMin : List ℚ → ℚ
  | [] => 0
  | x :: xs => xs.foldl min x

/-- Python `max` over a non-empty list (0 for the empty list, which the source
never passes). -/
def listMax : List ℚ → ℚ
  | [] => 0
  | x :: xs => xs.foldl max x

/-- Python `statistics.median`: middle of the sorted values, averaging the two middle
ones for an even count (0 for the empty list, which the source never passes). -/
def listMedian (l : List ℚ) : ℚ :=
  let s := l.insertionSort (· ≤ ·)
  let n := s.length
  if n % 2 = 1 then s.getD (n / 2) 0
  else (s.getD (n / 2 - 1) 0 + s.getD (n / 2) 0) / 2

/-- The sample variance used by `statistics.stdev`: squared deviations from the
mean divided by `n - 1`. -/
def sampleVariance (l : List ℚ) : ℚ :=
  (l.map (fun x => (x - listMean l) ^ 2)).sum / ((l.length : ℚ) - 1)

/-- Python `statistics.stdev`: square root of the sample variance. -/
noncomputable def listStdev (l : List ℚ) : ℝ := Real.sqrt (sampleVariance l)

/-- The dict returned by `_calculate_stats` (lines 134-159).  The
`std_deviation` key is present only on the non-empty-window branch, hence the
`Option` type. -/
structure StatsDict where
  count : ℕ
  avg_response_time : ℚ
  median_response_time : ℚ
  min_response_time : ℚ
  max_response_time : ℚ
  std_deviation : Option ℝ
  error_rate : ℚ
  total_time : ℚ

/-- The literal dict of the empty-window branch (lines 137-145): all values
zero and no `std_deviation` key. -/
def emptyStatsDict : StatsDict := ⟨0, 0, 0, 0, 0, none, 0, 0⟩

/-- The raw dict handed to `_calculate_stats`: either a real per-endpoint entry
or the empty dict produced by `endpoint_stats.get(endpoint, dict())` for an
unknown key. -/
inductive RawStats where
  | emptyDict
  | entry (e : EndpointEntry)

/-- Method `PerformanceMonitor._calculate_stats` (lines 134-159).  On the empty dict,
the very first access `stats['response_times']` raises `KeyError`, modelled as
`Except.error`. -/
noncomputable def calculate_stats : RawStats → Except String StatsDict
  | .emptyDict => .error ("KeyError: response_times")
  | .entry e =>
    if e.response_times = [] then
      .ok emptyStatsDict
    else
      .ok { count := e.count
            avg_response_time := listMean e.response_times
            median_response_time := listMedian e.response_times
            min_response_time := listMin e.response_times
            max_response_time := listMax e.response_times
            std_deviation :=
              some (if 1 < e.response_times.length then listStdev e.response_times else 0)
            error_rate := if 0 < e.count then (e.errors : ℚ) / (e.count : ℚ) else 0
            total_time := e.total_time }

/-- Result of `get_endpoint_stats`: one endpoint's stats, or the whole map. -/
inductive EndpointQueryResult where
  | single (r : Except String StatsDict)
  | all (rs : List (String × Except String StatsDict))

/-- Method `PerformanceMonitor.get_endpoint_stats` (lines 122-132), also returning the
state after the call.  `if endpoint:` is Python truthiness, so `None` and the
empty string both take the all-endpoints branch. -/
noncomputable def get_endpoint_stats (s : MonitorState) (endpoint : Option String) :
    EndpointQueryResult × MonitorState :=
  if pyTruthyStr endpoint then
    (.single (calculate_stats
      (match lookupEntry s.endpoint_stats (endpoint.getD ("")) with
       | some e => .entry e
       | none => .emptyDict)), s)
  else
    (.all (s.endpoint_stats.map fun p => (p.1, calculate_stats (.entry p.2))), s)

/-- The dict returned by `get_system_stats` (lines 161-184).  The
`memory_used_mb_avg` key is present only on the non-empty branch, hence the
`Option` type. -/
structure SystemStatsDict where
  cpu_avg : ℚ
  memory_avg : ℚ
  disk_avg : ℚ
  memory_used_mb_avg : Option ℚ
  sample_count : ℕ
deriving DecidableEq

/-- Acquiring the monitor's non-reentrant `threading.Lock`: succeeds when free;
blocks the caller forever when already held, modelled as `none`. -/
def lock_acquire (held : Bool) : Option Unit := if held then none else some ()

/-- The body of `get_system_stats` once the lock is held (lines 164-184). -/
def get_system_stats_core (s : MonitorState) (now minutes : ℚ) : SystemStatsDict :=
  let cutoff := now - minutes * 60
  let recent := s.system_metrics.filter (fun m => decide (cutoff < m.timestamp))
  if recent = [] then ⟨0, 0, 0, none, 0⟩
  else
    { cpu_avg := listMean (recent.map SystemMetrics.cpu_percent)
      memory_avg := listMean (recent.map SystemMetrics.memory_percent)
      disk_avg := listMean (recent.map SystemMetrics.disk_usage_percent)
      memory_used_mb_avg := some (listMean (recent.map SystemMetrics.memory_used_mb))
      sample_count := recent.length }

/-- Method `PerformanceMonitor.get_system_stats` (lines 161-184): takes the lock, then
computes over the trailing window.  `held` records whether the calling thread
already holds the monitor's lock. -/
def get_system_stats (held : Bool) (s : MonitorState) (now minutes : ℚ) :
    Option SystemStatsDict × MonitorState :=
  match lock_acquire held with
  | none => (none, s)
  | some _ => (some (get_system_stats_core s now minutes), s)

/-- The dict returned by `get_performance_summary` (lines 197-205). -/
structure SummaryDict where
  total_requests : ℕ
  total_errors : ℕ
  overall_error_rate : ℚ
  avg_response_time : ℚ
  total_time : ℚ
  endpoint_count : ℕ
  system_stats : SystemStatsDict
deriving DecidableEq

/-- Method `PerformanceMonitor.get_performance_summary` (lines 186-205): acquires the
lock, aggregates across all endpoint entries, and builds the result dict whose
`system_stats` value calls `self.get_system_stats()` while the same
non-reentrant lock is still held. -/
def get_performance_summary (s : MonitorState) (now : ℚ) : Option SummaryDict × MonitorState :=
  match lock_acquire false with
  | none => (none, s)
  | some _ =>
    let total_requests := (s.endpoint_stats.map (fun p => p.2.count)).sum
    let total_errors := (s.endpoint_stats.map (fun p => p.2.errors)).sum
    let total_time := (s.endpoint_stats.map (fun p => p.2.total_time)).sum
    let all_response_times := (s.endpoint_stats.map (fun p => p.2.response_times)).flatten
    match (get_system_stats true s now 5).1 with
    | none => (none, s)
    | some sys =>
      (some { total_requests := total_requests
              total_errors := total_errors
              overall_error_rate :=
                if 0 < total_requests then (total_errors : ℚ) / (total_requests : ℚ) else 0
              avg_response_time :=
                if all_response_times = [] then 0 else listMean all_response_times
              total_time := total_time
              endpoint_count := s.endpoint_stats.length
              system_stats := sys }, s)

/-- An inbound HTTP request as seen by the middleware (path and method). -/
structure Request where
  path : String
  method : String
deriving DecidableEq

/-- A response carrying a status code and a payload. -/
structure Response where
  status_code : ℤ
  body : String
deriving DecidableEq

/-- A Python exception; `str(e)` is its message. -/
structure Exn where
  msg : String
deriving DecidableEq

/-- Middleware `PerformanceMiddleware.__call__` (lines 213-242): the wrapped pipeline's
outcome (`call_next`) is either a response or an exception; the middleware
records a metric and forwards the outcome.  `elapsed` is the measured
wall-clock duration and `now` the capture instant. -/
def middleware_call (s : MonitorState) (req : Request) (elapsed now : ℚ)
    (outcome : Except Exn Response) : Except Exn Response × MonitorState × List LogEvent :=
  match outcome with
  | .ok resp =>
    let r := record_request s
      ⟨req.path, req.method, elapsed, resp.status_code, now, none, none⟩
    (.ok resp, r.1, r.2)
  | .error e =>
    let r := record_request s
      ⟨req.path, req.method, elapsed, 500, now, none, some e.msg⟩
    (.error e, r.1, r.2)

/-- The `performance_timer` context manager (lines 244-269): wraps a named
internal operation, records a metric tagged `method = "INTERNAL"` when a
monitor was supplied, and re-raises the body's exception or returns its result
unchanged. -/
def performance_timer (operation_name : String) (monitor : Option MonitorState)
    (elapsed now : ℚ) (outcome : Except Exn Unit) :
    Except Exn Unit × Option (MonitorState × List LogEvent) :=
  match outcome with
  | .error e =>
    (.error e, monitor.map fun s =>
      record_request s ⟨operation_name, "INTERNAL", elapsed, 500, now, none, some e.msg⟩)
  | .ok u =>
    (.ok u, monitor.map fun s =>
      record_request s ⟨operation_name, "INTERNAL", elapsed, 200, now, none, none⟩)

/-- The spec's example scenario (§8): three requests to `GET /courses` with
times 0.2, 1.5, 0.3 and status codes 200, 200, 404, none carrying an error
message. -/
def exampleCalls : List PerformanceMetrics :=
  [⟨"/courses", "GET", 1/5, 200, 0, none, none⟩,
   ⟨"/courses", "GET", 3/2, 200, 0, none, none⟩,
   ⟨"/courses", "GET", 3/10, 404, 0, none, none⟩]

/-! ### Helper lemmas -/

theorem length_takeLast (n : ℕ) (l : List α) : (takeLast n l).length = min n l.length := by
  simp only [takeLast, List.length_drop]
  omega

theorem takeLast_of_length_le {n : ℕ} {l : List α} (h : l.length ≤ n) : takeLast n l = l := by
  have h0 : l.length - n = 0 := by omega
  simp [takeLast, h0]

theorem takeLast_takeLast_append (n : ℕ) (a b : List α) :
    takeLast n (takeLast n a ++ b) = takeLast n (a ++ b) := by
  simp only [takeLast, List.length_append, List.length_drop,
    List.drop_append_eq_append_drop, List.drop_drop]
  congr 2 <;> omega

theorem pushAll_eq_takeLast (n : ℕ) (l : List α) :
    ∀ w : List α, w.length ≤ n → pushAll n w l = takeLast n (w ++ l) := by
  induction l with
  | nil =>
    intro w h
    simpa [pushAll] using (takeLast_of_length_le h).symm
  | cons x xs ih =>
    intro w h
    have hstep : (dequePush n w x).length ≤ n := by
      simp only [dequePush, length_takeLast]
      omega
    calc pushAll n w (x :: xs) = pushAll n (dequePush n w x) xs := rfl
      _ = takeLast n (dequePush n w x ++ xs) := ih _ hstep
      _ = takeLast n (takeLast n (w ++ [x]) ++ xs) := rfl
      _ = takeLast n ((w ++ [x]) ++ xs) := takeLast_takeLast_append n (w ++ [x]) xs
      _ = takeLast n (w ++ x :: xs) := by simp

theorem lookupEntry_setEntry (d : List (String × EndpointEntry)) (k k' : String)
    (v : EndpointEntry) :
    lookupEntry (setEntry d k v) k' = if k' = k then some v else lookupEntry d k' := by
  induction d with
  | nil => simp [setEntry, lookupEntry]
  | cons p rest ih =>
    obtain ⟨k0, v0⟩ := p
    by_cases h : k = k0
    · subst h
      by_cases h' : k' = k <;> simp [setEntry, lookupEntry, h']
    · by_cases h' : k' = k0
      · subst h'
        have hkk : ¬ k' = k := fun hc => h hc.symm
        simp [setEntry, lookupEntry, h, hkk]
      · simp [setEntry, lookupEntry, h, h', ih]

theorem entryAt_record_request (s : MonitorState) (m : PerformanceMetrics) (k : String) :
    entryAt (record_request s m).1 k =
      if endpoint_key m = k
      then entry_record (entryAt s k) m.response_time (decide (400 ≤ m.status_code))
      else entryAt s k := by
  by_cases h : endpoint_key m = k
  · subst h
    simp [record_request, entryAt, lookupEntry_setEntry]
  · have h' : ¬ k = endpoint_key m := fun hc => h hc.symm
    simp [record_request, entryAt, lookupEntry_setEntry, h, h']

theorem runRecords_cons (s : MonitorState) (m : PerformanceMetrics)
    (l : List PerformanceMetrics) :
    runRecords s (m :: l) = runRecords (record_request s m).1 l := rfl

theorem count_entryAt_runRecords (l : List PerformanceMetrics) :
    ∀ (s : MonitorState) (k : String),
      (entryAt (runRecords s l) k).count
        = (entryAt s k).count + (l.filter (fun m => decide (endpoint_key m = k))).length := by
  induction l with
  | nil => intro s k; simp [runRecords]
  | cons m rest ih =>
    intro s k
    rw [runRecords_cons, ih, entryAt_record_request]
    by_cases h : endpoint_key m = k
    · simp only [h, if_pos, entry_record, List.filter_cons, decide_eq_true_eq, if_pos h]
      simp [entry_record]
      omega
    · simp [h, entry_record, List.filter_cons]

theorem errors_entryAt_runRecords (l : List PerformanceMetrics) :
    ∀ (s : MonitorState) (k : String),
      (entryAt (runRecords s l) k).errors
        = (entryAt s k).errors
          + (l.filter (fun m =>
              decide (endpoint_key m = k) && decide (400 ≤ m.status_code))).length := by
  induction l with
  | nil => intro s k; simp [runRecords]
  | cons m rest ih =>
    intro s k
    rw [runRecords_cons, ih, entryAt_record_request]
    by_cases h : endpoint_key m = k
    · by_cases he : (400 : ℤ) ≤ m.status_code
      · simp [h, he, entry_record, List.filter_cons]
        omega
      · simp [h, he, entry_record, List.filter_cons]
    · simp [h, entry_record, List.filter_cons]

theorem length_filter_and_le (p q : α → Bool) (l : List α) :
    (l.filter fun a => p a && q a).length ≤ (l.filter p).length := by
  induction l with
  | nil => simp
  | cons x xs ih =>
    by_cases hp : p x <;> by_cases hq : q x <;> simp [hp, hq, List.filter_cons] <;> omega

theorem entryAt_initMonitor (k : String) : entryAt initMonitor k = defaultEntry := rfl

theorem foldEntry_count (ops : List (ℚ × Bool)) :
    ∀ e : EndpointEntry,
      (ops.foldl (fun e p => entry_record e p.1 p.2) e).count = e.count + ops.length := by
  induction ops with
  | nil => intro e; simp
  | cons p rest ih =>
    intro e
    rw [List.foldl_cons, ih]
    simp only [entry_record, List.length_cons]
    omega

theorem foldEntry_total_time (ops : List (ℚ × Bool)) :
    ∀ e : EndpointEntry,
      (ops.foldl (fun e p => entry_record e p.1 p.2) e).total_time
        = e.total_time + (ops.map Prod.fst).sum := by
  induction ops with
  | nil => intro e; simp
  | cons p rest ih =>
    intro e
    rw [List.foldl_cons, ih]
    simp only [entry_record, List.map_cons, List.sum_cons]
    ring

theorem foldEntry_response_times (ops : List (ℚ × Bool)) :
    ∀ e : EndpointEntry,
      (ops.foldl (fun e p => entry_record e p.1 p.2) e).response_times
        = pushAll 100 e.response_times (ops.map Prod.fst) := by
  induction ops with
  | nil => intro e; simp [pushAll]
  | cons p rest ih =>
    intro e
    rw [List.foldl_cons, ih]
    rfl

theorem runEntry_count (ops : List (ℚ × Bool)) : (runEntry ops).count = ops.length := by
  simpa [defaultEntry] using foldEntry_count ops defaultEntry

theorem runEntry_total_time (ops : List (ℚ × Bool)) :
    (runEntry ops).total_time = (ops.map Prod.fst).sum := by
  simpa [defaultEntry] using foldEntry_total_time ops defaultEntry

theorem runEntry_response_times (ops : List (ℚ × Bool)) :
    (runEntry ops).response_times = takeLast 100 (ops.map Prod.fst) := by
  rw [runEntry, foldEntry_response_times]
  simpa [defaultEntry] using pushAll_eq_takeLast 100 (ops.map Prod.fst) [] (by simp)

theorem foldl_min_le (xs : List ℚ) :
    ∀ a : ℚ, xs.foldl min a ≤ a ∧ ∀ y ∈ xs, xs.foldl min a ≤ y := by
  induction xs with
  | nil => intro a; simp
  | cons x xs ih =>
    intro a
    have h := ih (min a x)
    constructor
    · rw [List.foldl_cons]
      exact le_trans h.1 (min_le_left a x)
    · intro y hy
      rw [List.foldl_cons]
      rcases List.mem_cons.mp hy with rfl | h'
      · exact le_trans h.1 (min_le_right a y)
      · exact h.2 y h'

theorem foldl_min_mem (xs : List ℚ) : ∀ a : ℚ, xs.foldl min a ∈ a :: xs := by
  induction xs with
  | nil => intro a; simp
  | cons x xs ih =>
    intro a
    have h := ih (min a x)
    rcases List.mem_cons.mp h with h' | h'
    · rcases min_choice a x with hc | hc <;> rw [List.foldl_cons, h', hc] <;> simp
    · simp [List.foldl_cons, List.mem_cons.mpr (Or.inr (List.mem_cons.mpr (Or.inr h')))]

theorem foldl_max_le (xs : List ℚ) :
    ∀ a : ℚ, a ≤ xs.foldl max a ∧ ∀ y ∈ xs, y ≤ xs.foldl max a := by
  induction xs with
  | nil => intro a; simp
  | cons x xs ih =>
    intro a
    have h := ih (max a x)
    constructor
    · rw [List.foldl_cons]
      exact le_trans (le_max_left a x) h.1
    · intro y hy
      rw [List.foldl_cons]
      rcases List.mem_cons.mp hy with rfl | h'
      · exact le_trans (le_max_right a y) h.1
      · exact h.2 y h'

theorem foldl_max_mem (xs : List ℚ) : ∀ a : ℚ, xs.foldl max a ∈ a :: xs := by
  induction xs with
  | nil => intro a; simp
  | cons x xs ih =>
    intro a
    have h := ih (max a x)
    rcases List.mem_cons.mp h with h' | h'
    · rcases max_choice a x with hc | hc <;> rw [List.foldl_cons, h', hc] <;> simp
    · simp [List.foldl_cons, List.mem_cons.mpr (Or.inr (List.mem_cons.mpr (Or.inr h')))]

theorem listMin_mem (x : ℚ) (xs : List ℚ) : listMin (x :: xs) ∈ x :: xs :=
  foldl_min_mem xs x

theorem listMin_le (x : ℚ) (xs : List ℚ) : ∀ y ∈ x :: xs, listMin (x :: xs) ≤ y := by
  intro y hy
  rcases List.mem_cons.mp hy with h' | h'
  · exact h' ▸ (foldl_min_le xs x).1
  · exact (foldl_min_le xs x).2 y h'

theorem listMax_mem (x : ℚ) (xs : List ℚ) : listMax (x :: xs) ∈ x :: xs :=
  foldl_max_mem xs x

theorem le_listMax (x : ℚ) (xs : List ℚ) : ∀ y ∈ x :: xs, y ≤ listMax (x :: xs) := by
  intro y hy
  rcases List.mem_cons.mp hy with h' | h'
  · exact h' ▸ (foldl_max_le xs x).1
  · exact (foldl_max_le xs x).2 y h'

theorem listMean_spec (x : ℚ) (xs : List ℚ) :
    (((x :: xs).length : ℚ)) * listMean (x :: xs) = (x :: xs).sum := by
  have hn : (((x :: xs).length : ℚ)) ≠ 0 := by
    simp only [List.length_cons]
    positivity
  rw [listMean, mul_comm, div_mul_cancel₀ _ hn]

/-! ### Claim theorems -/

/-- Claim C1.  The spec says `getEndpointStats(key)` on a never-recorded key
returns a zeroed statistics object and raises no error.  The code instead
evaluates `_calculate_stats(self.endpoint_stats.get(endpoint, dict()))`, and on
the empty dict the first access `stats['response_times']` raises `KeyError`.
This theorem evaluates the code at the failing input: a fresh monitor queried
for an unknown key, whose lookup is indeed absent, produces the `KeyError`
rather than zeroed statistics. -/
theorem C1_unknown_key_keyerror :
    get_endpoint_stats initMonitor (some ("GET /unknown"))
      = (.single (.error ("KeyError: response_times")), initMonitor)
    ∧ lookupEntry initMonitor.endpoint_stats ("GET /unknown") = none := by
  exact ⟨rfl, rfl⟩

/-- Claim C2: after any finite sequence of `recordRequest` calls, the
aggregator at key `k` has `count` equal to the number of calls whose metric has
key `k`, `errors` equal to the number of such calls with status code at least
400, and hence `errors ≤ count`. -/
theorem C2_lifetime_counters (l : List PerformanceMetrics) (k : String) :
    (entryAt (runRecords initMonitor l) k).count
      = (l.filter (fun m => decide (endpoint_key m = k))).length
    ∧ (entryAt (runRecords initMonitor l) k).errors
      = (l.filter (fun m =>
          decide (endpoint_key m = k) && decide (400 ≤ m.status_code))).length
    ∧ (entryAt (runRecords initMonitor l) k).errors
        ≤ (entryAt (runRecords initMonitor l) k).count := by
  have hc := count_entryAt_runRecords l initMonitor k
  have he := errors_entryAt_runRecords l initMonitor k
  rw [entryAt_initMonitor] at hc he
  simp only [defaultEntry, Nat.zero_add] at hc he
  refine ⟨hc, he, ?_⟩
  rw [hc, he]
  exact length_filter_and_le _ _ l

/-- Claim C4: a rolling window of capacity `C ≥ 1`, after `C + k` pushes,
holds exactly the last `C` pushed items in push order; the per-endpoint
latency window has capacity 100, the global request and system-sample windows
have capacity `max_history`, and the default monitor uses `max_history =
1000`. -/
theorem C4_rolling_window_fifo (C : ℕ) (l : List ℚ) (_h1 : 1 ≤ C) (h2 : C ≤ l.length)
    (e : EndpointEntry) (rt : ℚ) (b : Bool) (s : MonitorState) (m : PerformanceMetrics)
    (sample : SystemMetrics) :
    (pushAll C ([] : List ℚ) l).length = C
    ∧ pushAll C ([] : List ℚ) l = l.drop (l.length - C)
    ∧ (entry_record e rt b).response_times = dequePush 100 e.response_times rt
    ∧ (record_request s m).1.request_metrics = dequePush s.max_history s.request_metrics m
    ∧ (record_system_sample s sample).system_metrics
        = dequePush s.max_history s.system_metrics sample
    ∧ initMonitor.max_history = 1000 := by
  have hp : pushAll C ([] : List ℚ) l = takeLast C l := by
    simpa using pushAll_eq_takeLast C l [] (by simp)
  refine ⟨?_, ?_, rfl, rfl, rfl, rfl⟩
  · rw [hp, length_takeLast]
    omega
  · rw [hp]
    rfl

/-- Witness for C4: capacity 2 and three pushes satisfy the hypotheses. -/
theorem C4_rolling_window_fifo_witness :
    (pushAll 2 ([] : List ℚ) [1, 2, 3]).length = 2 :=
  (C4_rolling_window_fifo 2 [1, 2, 3] (by decide) (by decide) defaultEntry 1 false
    initMonitor ⟨"/c", "GET", 1, 200, 0, none, none⟩ ⟨0, 0, 0, 0, 0⟩).1

/-- Claim C6.  The spec says `getPerformanceSummary` returns aggregate totals
plus a nested `getSystemStats()` result.  The code acquires the monitor's
non-reentrant `threading.Lock` and, still holding it, calls
`self.get_system_stats()`, which tries to acquire the same lock: the call
deadlocks and never returns a summary.  In the embedding a blocked acquisition
is `none`, so the summary is `none` for every state. -/
theorem C6_summary_deadlock (s : MonitorState) (now : ℚ) :
    (get_performance_summary s now).1 = none
    ∧ (get_system_stats true s now 5).1 = none :=
  ⟨rfl, rfl⟩

/-- Claim C7: the middleware and the `performance_timer` wrapper forward the
wrapped work's outcome unchanged (original response or original exception) and
record exactly one metric: on failure status 500 with the failure's message,
on success the observed status code (200 for the timer), the timer tagging
`method = "INTERNAL"`. -/
theorem C7_instrumentation_transparent (s : MonitorState) (req : Request)
    (elapsed now : ℚ) (outcome : Except Exn Response) (opname : String)
    (mon : Option MonitorState) (tout : Except Exn Unit) :
    middleware_call s req elapsed now outcome
      = (outcome, record_request s (match outcome with
          | .ok resp => ⟨req.path, req.method, elapsed, resp.status_code, now, none, none⟩
          | .error e => ⟨req.path, req.method, elapsed, 500, now, none, some e.msg⟩))
    ∧ performance_timer opname mon elapsed now tout
      = (tout, mon.map fun s0 => record_request s0 (match tout with
          | .ok _ => ⟨opname, "INTERNAL", elapsed, 200, now, none, none⟩
          | .error e => ⟨opname, "INTERNAL", elapsed, 500, now, none, some e.msg⟩)) := by
  constructor
  · cases outcome <;> rfl
  · cases tout <;> rfl

/-- Claim C10: the query operations leave the monitor state unchanged — same
windows, same counters, same aggregator keys; in particular querying an
unknown endpoint key creates no aggregator entry. -/
theorem C10_queries_pure (s : MonitorState) (endpt : Option String) (now minutes : ℚ) :
    (get_endpoint_stats s endpt).2 = s
    ∧ (get_system_stats false s now minutes).2 = s
    ∧ (get_system_stats true s now minutes).2 = s
    ∧ (get_performance_summary s now).2 = s
    ∧ (get_endpoint_stats s endpt).2.endpoint_stats = s.endpoint_stats := by
  have h1 : (get_endpoint_stats s endpt).2 = s := by
    by_cases h : pyTruthyStr endpt <;> simp [get_endpoint_stats, h]
  exact ⟨h1, rfl, rfl, rfl, by rw [h1]⟩

/-- Counterexample for C3 as stated.  The claim says an empty-window snapshot
returns all-zero statistics "including standard deviation 0"; the code's
empty-window branch returns a dict with no `std_deviation` key at all
(modelled as `none`), so the standard deviation is absent, not 0. -/
theorem C3_empty_window_std_cex :
    calculate_stats (RawStats.entry ⟨0, 0, 0, []⟩) = .ok emptyStatsDict
    ∧ emptyStatsDict.std_deviation = none
    ∧ (none : Option ℝ) ≠ some 0 :=
  ⟨rfl, rfl, by simp⟩

/-- Claim C3 (amended): for every reachable aggregator state with a non-empty
window, the snapshot reports mean, median, min and max of exactly the windowed
latencies (the window being the last 100 recorded latencies), sample standard
deviation of the window (0 when the window has fewer than 2 samples),
`error_rate = errors / count`, and the lifetime `count` and cumulative
`total_time`; with an empty window it returns the all-zero dict WITHOUT a
`std_deviation` key, whose zero `count` and `total_time` coincide with the
lifetime totals of the only reachable empty-window state. -/
theorem C3_snapshot_amended :
    (∀ (p : ℚ × Bool) (ops : List (ℚ × Bool)),
       (runEntry (p :: ops)).response_times = takeLast 100 ((p :: ops).map Prod.fst)
       ∧ (runEntry (p :: ops)).response_times ≠ []
       ∧ (runEntry (p :: ops)).count = ops.length + 1
       ∧ (runEntry (p :: ops)).total_time = ((p :: ops).map Prod.fst).sum
       ∧ calculate_stats (.entry (runEntry (p :: ops)))
           = .ok { count := (runEntry (p :: ops)).count
                   avg_response_time := listMean (runEntry (p :: ops)).response_times
                   median_response_time := listMedian (runEntry (p :: ops)).response_times
                   min_response_time := listMin (runEntry (p :: ops)).response_times
                   max_response_time := listMax (runEntry (p :: ops)).response_times
                   std_deviation := some
                     (if 1 < (runEntry (p :: ops)).response_times.length
                      then listStdev (runEntry (p :: ops)).response_times else 0)
                   error_rate := ((runEntry (p :: ops)).errors : ℚ)
                     / ((runEntry (p :: ops)).count : ℚ)
                   total_time := (runEntry (p :: ops)).total_time })
    ∧ (∀ (x : ℚ) (xs : List ℚ),
         (((x :: xs).length : ℚ)) * listMean (x :: xs) = (x :: xs).sum
         ∧ listMin (x :: xs) ∈ x :: xs
         ∧ (x :: xs).all (fun y => decide (listMin (x :: xs) ≤ y)) = true
         ∧ listMax (x :: xs) ∈ x :: xs
         ∧ (x :: xs).all (fun y => decide (y ≤ listMax (x :: xs))) = true)
    ∧ (∀ (x : ℚ) (b : Bool),
         calculate_stats (.entry (runEntry [(x, b)]))
           = .ok ⟨1, x, x, x, x, some 0, if b then 1 else 0, x⟩)
    ∧ calculate_stats (.entry (runEntry [])) = .ok emptyStatsDict
    ∧ emptyStatsDict.count = 0 ∧ emptyStatsDict.total_time = 0 := by
  refine ⟨?_, ?_, ?_, rfl, rfl, rfl⟩
  · intro p ops
    have hw : (runEntry (p :: ops)).response_times
        = takeLast 100 ((p :: ops).map Prod.fst) := runEntry_response_times (p :: ops)
    have hlen : (runEntry (p :: ops)).response_times.length
        = min 100 (ops.length + 1) := by
      rw [hw, length_takeLast]
      simp
    have hne : (runEntry (p :: ops)).response_times ≠ [] := by
      apply List.length_pos.mp
      rw [hlen]
      omega
    have hcount : (runEntry (p :: ops)).count = ops.length + 1 := by
      simpa using runEntry_count (p :: ops)
    have hpos : 0 < (runEntry (p :: ops)).count := by omega
    refine ⟨hw, hne, hcount, runEntry_total_time (p :: ops), ?_⟩
    simp [calculate_stats, hne, hpos]
  · intro x xs
    refine ⟨listMean_spec x xs, listMin_mem x xs, ?_, listMax_mem x xs, ?_⟩
    · apply List.all_eq_true.mpr
      intro y hy
      simpa using listMin_le x xs y hy
    · apply List.all_eq_true.mpr
      intro y hy
      simpa using le_listMax x xs y hy
  · intro x b
    cases b <;>
      simp [runEntry, entry_record, defaultEntry, calculate_stats, dequePush, takeLast,
        listMean, listMedian, listMin, listMax, List.insertionSort, List.orderedInsert]

/-- Counterexample for C5 as stated.  The claim says that with no samples in
the window, `getSystemStats` returns `sample_count = 0` with ALL averages 0.0;
the code's empty branch omits the `memory_used_mb_avg` key entirely (modelled
as `none`), so that average is absent, not 0. -/
theorem C5_no_samples_memory_avg_cex :
    (get_system_stats false initMonitor 0 5).1 = some ⟨0, 0, 0, none, 0⟩
    ∧ ((⟨0, 0, 0, none, 0⟩ : SystemStatsDict).memory_used_mb_avg ≠ some 0) :=
  ⟨rfl, by simp⟩

/-- Claim C5 (amended): `getSystemStats(m)` considers exactly the samples
whose timestamp is within the trailing `m` minutes (strictly newer than
`now - 60 m`); with none remaining it returns `sample_count = 0` with the cpu,
memory and disk averages 0.0 and NO `memory_used_mb_avg` key; otherwise the
arithmetic mean of each metric and the count of those samples.  The spec's
example holds: no samples gives zeros, and one sample with `cpuPercent = 50`
gives `cpu_avg = 50`, `sample_count = 1`. -/
theorem C5_system_stats_amended :
    (∀ (s : MonitorState) (now minutes : ℚ),
       (get_system_stats false s now minutes).1
         = some (if s.system_metrics.filter
                      (fun m => decide (now - minutes * 60 < m.timestamp)) = []
                 then ⟨0, 0, 0, none, 0⟩
                 else { cpu_avg := listMean ((s.system_metrics.filter
                          (fun m => decide (now - minutes * 60 < m.timestamp))).map
                            SystemMetrics.cpu_percent)
                        memory_avg := listMean ((s.system_metrics.filter
                          (fun m => decide (now - minutes * 60 < m.timestamp))).map
                            SystemMetrics.memory_percent)
                        disk_avg := listMean ((s.system_metrics.filter
                          (fun m => decide (now - minutes * 60 < m.timestamp))).map
                            SystemMetrics.disk_usage_percent)
                        memory_used_mb_avg := some (listMean ((s.system_metrics.filter
                          (fun m => decide (now - minutes * 60 < m.timestamp))).map
                            SystemMetrics.memory_used_mb))
                        sample_count := (s.system_metrics.filter
                          (fun m => decide (now - minutes * 60 < m.timestamp))).length }))
    ∧ (∀ now minutes : ℚ, (get_system_stats false initMonitor now minutes).1
         = some ⟨0, 0, 0, none, 0⟩)
    ∧ (get_system_stats false
         (record_system_sample initMonitor ⟨50, 40, 256, 10, 0⟩) 0 5).1
        = some ⟨50, 40, 10, some 256, 1⟩ := by
  refine ⟨fun s now minutes => rfl, fun now minutes => rfl, ?_⟩
  norm_num [get_system_stats, lock_acquire, get_system_stats_core, record_system_sample,
    initMonitor, mkMonitor, dequePush, takeLast, listMean]

/-- Counterexample for C8 as stated.  In the spec's example scenario the claim
expects one error-related log from the 404; the code logs an error only when
`error_message` is set, and the example's metrics carry none, so the run emits
exactly one slow-request warning and no error log at all. -/
theorem C8_no_error_log_cex :
    runEvents initMonitor exampleCalls = [LogEvent.slowRequest ("GET /courses") (3/2)]
    ∧ (runEvents initMonitor exampleCalls).filter isErrorEvent = [] := by
  have hev : runEvents initMonitor exampleCalls
      = [LogEvent.slowRequest ("GET /courses") (3/2)] := by
    have hk : ("GET" ++ " " ++ "/courses" : String) = "GET /courses" := by decide
    norm_num [runEvents, record_request, entryAt, lookupEntry, setEntry, entry_record,
      endpoint_key, pyTruthyStr, dequePush, takeLast, exampleCalls, initMonitor, mkMonitor,
      defaultEntry, hk]
  rw [hev]
  exact ⟨rfl, rfl⟩

/-- Claim C8 (amended): `recordRequest` emits the slow-request warning
carrying the key and the time iff the response time strictly exceeds the
slow-request threshold, and emits an error log iff the metric carries a
(non-empty) error message; in the spec's example scenario the 1.5 s request
fires the only warning, the 404 (which has no error message) produces no
error log, and the counters and windowed average match (`count = 3`,
`errors = 1`, `error rate 1/3`, mean 2/3). -/
theorem C8_alert_events_amended :
    (∀ (s : MonitorState) (m : PerformanceMetrics),
       (LogEvent.slowRequest (endpoint_key m) m.response_time ∈ (record_request s m).2
          ↔ s.slow_request_threshold < m.response_time)
       ∧ ((record_request s m).2.any isErrorEvent = pyTruthyStr m.error_message))
    ∧ runEvents initMonitor exampleCalls = [LogEvent.slowRequest ("GET /courses") (3/2)]
    ∧ (entryAt (runRecords initMonitor exampleCalls) ("GET /courses")).count = 3
    ∧ (entryAt (runRecords initMonitor exampleCalls) ("GET /courses")).errors = 1
    ∧ ((entryAt (runRecords initMonitor exampleCalls) ("GET /courses")).errors : ℚ)
        / ((entryAt (runRecords initMonitor exampleCalls) ("GET /courses")).count : ℚ) = 1/3
    ∧ listMean (entryAt (runRecords initMonitor exampleCalls) ("GET /courses")).response_times
        = 2/3 := by
  have hev : runEvents initMonitor exampleCalls
      = [LogEvent.slowRequest ("GET /courses") (3/2)] := by
    have hk : ("GET" ++ " " ++ "/courses" : String) = "GET /courses" := by decide
    norm_num [runEvents, record_request, entryAt, lookupEntry, setEntry, entry_record,
      endpoint_key, pyTruthyStr, dequePush, takeLast, exampleCalls, initMonitor, mkMonitor,
      defaultEntry, hk]
  have hcount : (entryAt (runRecords initMonitor exampleCalls) ("GET /courses")).count = 3 := by
    decide
  have herr : (entryAt (runRecords initMonitor exampleCalls) ("GET /courses")).errors = 1 := by
    decide
  have hrts : (entryAt (runRecords initMonitor exampleCalls) ("GET /courses")).response_times
      = [1/5, 3/2, 3/10] := by
    have hk : ("GET" ++ " " ++ "/courses" : String) = "GET /courses" := by decide
    norm_num [runRecords, record_request, entryAt, lookupEntry, setEntry, entry_record,
      endpoint_key, pyTruthyStr, dequePush, takeLast, exampleCalls, initMonitor, mkMonitor,
      defaultEntry, hk]
  refine ⟨?_, hev, hcount, herr, by rw [herr, hcount]; norm_num,
    by rw [hrts]; norm_num [listMean]⟩
  intro s m
  constructor
  · by_cases h1 : s.slow_request_threshold < m.response_time <;>
      by_cases h2 : pyTruthyStr m.error_message <;>
        simp [record_request, h1, h2]
  · by_cases h1 : s.slow_request_threshold < m.response_time <;>
      by_cases h2 : pyTruthyStr m.error_message <;>
        simp [record_request, h1, h2, isErrorEvent]

/-- Claim C9: with each `recordRequest` call atomic (the source holds the
monitor's single exclusive lock for the whole mutation), a concurrent
execution of 100 callers making 100 same-key calls each is the sequential
execution of some interleaving of the per-caller call lists — a permutation of
their concatenation.  Every such interleaving ends with `count` exactly
10,000: no lost updates. -/
theorem C9_concurrent_no_lost_updates (lss : List (List PerformanceMetrics))
    (l : List PerformanceMetrics) (k : String)
    (h1 : lss.length = 100)
    (h2 : ∀ t ∈ lss, t.length = 100)
    (h3 : ∀ t ∈ lss, ∀ m ∈ t, endpoint_key m = k)
    (h4 : l.Perm lss.flatten) :
    (entryAt (runRecords initMonitor l) k).count = 10000 := by
  have hc := count_entryAt_runRecords l initMonitor k
  rw [entryAt_initMonitor] at hc
  simp only [defaultEntry, Nat.zero_add] at hc
  rw [hc, ← List.countP_eq_length_filter, List.Perm.countP_eq _ h4, List.countP_flatten]
  have hmap : lss.map (List.countP fun m => decide (endpoint_key m = k))
      = lss.map List.length := by
    apply List.map_congr_left
    intro t ht
    apply List.countP_eq_length.mpr
    intro a ha
    simp [h3 t ht a ha]
  rw [hmap]
  rw [List.sum_eq_card_nsmul (lss.map List.length) 100 ?_]
  · rw [List.length_map, h1]
    norm_num
  · intro x hx
    rcases List.mem_map.mp hx with ⟨t, ht, rfl⟩
    exact h2 t ht

/-- Witness for C9: 100 callers, each contributing 100 identical calls keyed
`GET /c`, executed in the order of the concatenation itself. -/
theorem C9_concurrent_no_lost_updates_witness :
    (entryAt (runRecords initMonitor
        (List.replicate 100 (List.replicate 100
          (⟨"/c", "GET", 1, 200, 0, none, none⟩ : PerformanceMetrics))).flatten)
      ("GET /c")).count = 10000 :=
  C9_concurrent_no_lost_updates _ _ _
    (by simp)
    (fun t ht => by rw [(List.mem_replicate.mp ht).2]; simp)
    (fun t ht m hm => by
      rw [(List.mem_replicate.mp ht).2] at hm
      rw [(List.mem_replicate.mp hm).2]
      rfl)
    (List.Perm.refl _)

end CampoCode
